import Mathlib

/-!
Shallow embedding of the forensic-value-ai analysis pipeline.

Each definition is translated from one function of the Python source:

* `shouldReinvestigate`, `overallRiskScore`, `riskLevel`, `graphEdges`,
  `criticConditionalEdges` — from `src/graph/workflow.py`
  (`ForensicWorkflow._should_reinvestigate`, `_generate_report`,
  `_risk_level`, `_build_graph`).
* `calculate_adjusted_confidence` — from `src/memory/confidence.py`.
* `LLMProvider.call` — from `src/llm/provider.py` (`LLMProvider.call`).
* `jsonLoads`, `parseJsonResponse` — from
  `LLMProvider._parse_json_response` plus a model of Python's
  `json.loads` on the JSON fragment the repository exchanges.
* `callLlmJson`, `extractFindings` — from `src/agents/base.py`
  (`BaseAgent._call_llm_json`, `BaseAgent._extract_findings`).
* `forensicAnalyze` — from `src/agents/forensic.py`
  (`ForensicAccountingAgent.analyze`).

Python floats are modelled by `ℚ`: every claim checked here concerns
order comparisons, clamping, defaults and exact decimal values that are
unaffected by binary floating-point rounding at these magnitudes.
Python dict access `d.get(k, default)` is modelled by `Option` fields
with `Option.getD`.
-/

namespace ForensicVerify

/-- Python truthiness of an optional numeric state entry:
`state.get(key)` is falsy when the key is absent, `None`, or the value
is (numerically) zero. -/
def truthy : Option ℚ → Bool
  | none => false
  | some q => decide (q ≠ 0)

/-- Python `round(x, 1)` (round half to even at one decimal place),
restricted to exact rational inputs. -/
def pyRound1 (x : ℚ) : ℚ :=
  ((if x * 10 - ((x * 10).floor : ℚ) > 1/2 then (x * 10).floor + 1
    else if x * 10 - ((x * 10).floor : ℚ) < 1/2 then (x * 10).floor
    else if (x * 10).floor % 2 = 0 then (x * 10).floor
    else (x * 10).floor + 1 : ℤ) : ℚ) / 10

/-- JSON values, the result type of the `json.loads` model. -/
inductive JsonVal where
  | null
  | bool (b : Bool)
  | num (q : ℚ)
  | str (s : String)
  | arr (elems : List JsonVal)
  | obj (fields : List (String × JsonVal))

/-- Python `str.strip()` whitespace (ASCII portion). -/
def isPyWs (c : Char) : Bool :=
  c = ' ' || c = '\t' || c = '\n' || c = '\r' || c = '\x0B' || c = '\x0C'

/-- Python `str.strip()` on a character list. -/
def pyStrip (l : List Char) : List Char :=
  ((l.dropWhile isPyWs).reverse.dropWhile isPyWs).reverse

/-- Whether `pat` is an initial segment of `l`. -/
def startsWithChars : List Char → List Char → Bool
  | _, [] => true
  | [], _ :: _ => false
  | c :: cs, d :: ds => c = d && startsWithChars cs ds

/-- First index (counting from `idx`) at which `pat` occurs in the
remaining text, Python `str.find` style. -/
def findSubAux (pat : List Char) : List Char → Nat → Option Nat
  | [], idx => if startsWithChars [] pat then some idx else none
  | c :: rest, idx =>
    if startsWithChars (c :: rest) pat then some idx
    else findSubAux pat rest (idx + 1)

/-- Python `text.find(pat)` / `text.index(pat)`: first occurrence index,
`none` for "not found" (`-1` / `ValueError`). -/
def findSub (hay pat : List Char) : Option Nat :=
  findSubAux pat hay 0

/-- Python `text.index(pat, start)`: first occurrence at or after
`start`. -/
def findSubFrom (hay pat : List Char) (start : Nat) : Option Nat :=
  (findSubAux pat (hay.drop start) 0).map (· + start)

/-- Python `text.rfind(c)` for a single character: last occurrence. -/
def rfindChar (hay : List Char) (c : Char) : Option Nat :=
  match findSubAux [c] hay.reverse 0 with
  | none => none
  | some i => some (hay.length - 1 - i)

/-- Python slice `text[a:b]` (with `0 ≤ a ≤ b`). -/
def pySlice (l : List Char) (a b : Nat) : List Char :=
  (l.take b).drop a

/-- JSON whitespace accepted by `json.loads`. -/
def isJsonWs (c : Char) : Bool :=
  c = ' ' || c = '\t' || c = '\n' || c = '\r'

/-- Skip JSON whitespace. -/
def skipWs (l : List Char) : List Char :=
  l.dropWhile isJsonWs

/-- Value of a hexadecimal digit. -/
def hexVal (c : Char) : Option Nat :=
  if c.isDigit then some (c.toNat - 48)
  else if 'a' ≤ c ∧ c ≤ 'f' then some (c.toNat - 87)
  else if 'A' ≤ c ∧ c ≤ 'F' then some (c.toNat - 55)
  else none

/-- JSON string body parser (the opening quote is already consumed):
handles the escape sequences `json.loads` accepts and rejects raw
control characters, returning the decoded string and the rest of the
input. -/
def parseStringBody : List Char → List Char → Option (String × List Char)
  | _, [] => none
  | acc, c :: rest =>
    if c = '"' then some (String.mk acc.reverse, rest)
    else if c = '\\' then
      match rest with
      | [] => none
      | e :: rest2 =>
        if e = '"' then parseStringBody ('"' :: acc) rest2
        else if e = '\\' then parseStringBody ('\\' :: acc) rest2
        else if e = '/' then parseStringBody ('/' :: acc) rest2
        else if e = 'b' then parseStringBody ('\x08' :: acc) rest2
        else if e = 'f' then parseStringBody ('\x0C' :: acc) rest2
        else if e = 'n' then parseStringBody ('\n' :: acc) rest2
        else if e = 'r' then parseStringBody ('\r' :: acc) rest2
        else if e = 't' then parseStringBody ('\t' :: acc) rest2
        else if e = 'u' then
          match rest2 with
          | h1 :: h2 :: h3 :: h4 :: rest3 =>
            match hexVal h1, hexVal h2, hexVal h3, hexVal h4 with
            | some a, some b, some c4, some d =>
              parseStringBody (Char.ofNat (((a * 16 + b) * 16 + c4) * 16 + d) :: acc) rest3
            | _, _, _, _ => none
          | _ => none
        else none
    else if c.toNat < 32 then none
    else parseStringBody (c :: acc) rest

/-- Leading decimal digits of the input, as digit values. -/
def takeDigits : List Char → List Nat × List Char
  | [] => ([], [])
  | c :: rest =>
    if c.isDigit then
      let p := takeDigits rest
      ((c.toNat - 48) :: p.1, p.2)
    else ([], c :: rest)

/-- Natural number denoted by a digit list. -/
def digitsToNat (ds : List Nat) : Nat :=
  ds.foldl (fun a d => a * 10 + d) 0

/-- Rational power of ten with integer exponent. -/
def pow10 (e : Int) : ℚ :=
  if 0 ≤ e then ((10 : ℚ) ^ e.toNat) else 1 / (10 : ℚ) ^ (-e).toNat

/-- JSON fraction part, after the `.`. -/
def parseFracPart (l : List Char) : Option (ℚ × List Char) :=
  let p := takeDigits l
  if p.1 = [] then none
  else some ((digitsToNat p.1 : ℚ) / (10 : ℚ) ^ p.1.length, p.2)

/-- JSON exponent part, after the `e`/`E`. -/
def parseExpPart (l : List Char) : Option (Int × List Char) :=
  let sp : Int × List Char :=
    match l with
    | '+' :: rest => (1, rest)
    | '-' :: rest => (-1, rest)
    | _ => (1, l)
  let p := takeDigits sp.2
  if p.1 = [] then none else some (sp.1 * (digitsToNat p.1 : Int), p.2)

/-- JSON number parser (`-? int frac? exp?`, no leading zeros). -/
def parseNumber (l : List Char) : Option (ℚ × List Char) :=
  let sp : Bool × List Char :=
    match l with
    | '-' :: rest => (true, rest)
    | _ => (false, l)
  let ip := takeDigits sp.2
  if ip.1 = [] then none
  else if 1 < ip.1.length ∧ ip.1.head? = some 0 then none
  else
    let base : ℚ := (digitsToNat ip.1 : ℚ)
    let step1 : Option (ℚ × List Char) :=
      match ip.2 with
      | '.' :: rest => (parseFracPart rest).map (fun p => (base + p.1, p.2))
      | _ => some (base, ip.2)
    match step1 with
    | none => none
    | some (v, l3) =>
      let step2 : Option (ℚ × List Char) :=
        match l3 with
        | 'e' :: rest => (parseExpPart rest).map (fun p => (v * pow10 p.1, p.2))
        | 'E' :: rest => (parseExpPart rest).map (fun p => (v * pow10 p.1, p.2))
        | _ => some (v, l3)
      step2.map (fun p => (if sp.1 then -p.1 else p.1, p.2))

mutual

/-- Recursive-descent JSON value parser modelling `json.loads`; `fuel`
dominates the nesting depth (each level consumes at least one input
character, so `length + 1` fuel always suffices). -/
def parseVal : Nat → List Char → Option (JsonVal × List Char)
  | 0, _ => none
  | Nat.succ fuel, l =>
    match skipWs l with
    | [] => none
    | c :: rest =>
      if c = '\x7b' then
        match skipWs rest with
        | '\x7d' :: rest2 => some (.obj [], rest2)
        | rest2 => (parseMembers fuel rest2).map (fun p => (JsonVal.obj p.1, p.2))
      else if c = '[' then
        match skipWs rest with
        | ']' :: rest2 => some (.arr [], rest2)
        | rest2 => (parseElements fuel rest2).map (fun p => (JsonVal.arr p.1, p.2))
      else if c = '"' then
        (parseStringBody [] rest).map (fun p => (JsonVal.str p.1, p.2))
      else if startsWithChars (c :: rest) ("true".data) then
        some (.bool true, (c :: rest).drop 4)
      else if startsWithChars (c :: rest) ("false".data) then
        some (.bool false, (c :: rest).drop 5)
      else if startsWithChars (c :: rest) ("null".data) then
        some (.null, (c :: rest).drop 4)
      else
        (parseNumber (c :: rest)).map (fun p => (JsonVal.num p.1, p.2))

/-- Members of a JSON object after the opening brace (nonempty case). -/
def parseMembers : Nat → List Char → Option (List (String × JsonVal) × List Char)
  | 0, _ => none
  | Nat.succ fuel, l =>
    match skipWs l with
    | '"' :: rest =>
      match parseStringBody [] rest with
      | none => none
      | some (key, rest2) =>
        match skipWs rest2 with
        | ':' :: rest3 =>
          match parseVal fuel rest3 with
          | none => none
          | some (v, rest4) =>
            match skipWs rest4 with
            | ',' :: rest5 =>
              (parseMembers fuel rest5).map (fun p => ((key, v) :: p.1, p.2))
            | '\x7d' :: rest5 => some ([(key, v)], rest5)
            | _ => none
        | _ => none
    | _ => none

/-- Elements of a JSON array after the opening bracket (nonempty case). -/
def parseElements : Nat → List Char → Option (List JsonVal × List Char)
  | 0, _ => none
  | Nat.succ fuel, l =>
    match parseVal fuel l with
    | none => none
    | some (v, rest) =>
      match skipWs rest with
      | ',' :: rest2 =>
        (parseElements fuel rest2).map (fun p => (v :: p.1, p.2))
      | ']' :: rest2 => some ([v], rest2)
      | _ => none

end

/-- Model of Python `json.loads`: parse one value and require only
whitespace to remain; `none` models a raised `json.JSONDecodeError`. -/
def jsonLoads (s : String) : Option JsonVal :=
  match parseVal (s.length + 1) s.data with
  | none => none
  | some (v, rest) => if skipWs rest = [] then some v else none

/-- Errors `_parse_json_response` can raise: the uncaught
`ValueError("substring not found")` escaping `str.index` when a fence
marker has no closing fence, and the final
`ValueError("Could not parse JSON from LLM response: " + text[:200])`. -/
inductive ParseJsonError where
  | substringNotFound
  | couldNotParse (snippet : String)
  deriving DecidableEq

/-- Outcome of one recovery stage inside `_parse_json_response`. -/
inductive Stage where
  | hit (v : JsonVal)
  | miss
  | crash

/-- Fenced-block stage of `_parse_json_response` for a given opening
marker (`"```json"` with offset 7, or `"```"` with offset 3): if the
marker occurs, the closing ````` ``` ````` is located with `str.index`
— which raises when absent — and the stripped inner content is parsed. -/
def tryFencedBlock (marker : List Char) (text : List Char) : Stage :=
  match findSub text marker with
  | none => .miss
  | some i =>
    let start := i + marker.length
    match findSubFrom text ("```".data) start with
    | none => .crash
    | some e =>
      match jsonLoads (String.mk (pyStrip (pySlice text start e))) with
      | some v => .hit v
      | none => .miss

/-- Brace stage of `_parse_json_response`: substring from the first
`\x7b` to the last `\x7d` (inclusive), parsed if that span is nonempty. -/
def tryBraces (text : List Char) : Option JsonVal :=
  match findSub text ['\x7b'], rfindChar text '\x7d' with
  | some bs, some be =>
    if bs < be + 1 then jsonLoads (String.mk (pySlice text bs (be + 1)))
    else none
  | _, _ => none

/-- LLMProvider._parse_json_response.  `repair` models the external
`json_repair.loads` library call (any exception there, including
`ImportError`, is `none`).  The four recovery strategies run in order;
the fenced-block strategy tries the ````` ```json ````` marker and then
the plain ````` ``` ````` marker. -/
def parseJsonResponse (repair : String → Option JsonVal) (text0 : String) :
    Except ParseJsonError JsonVal :=
  let text := pyStrip text0.data
  match jsonLoads (String.mk text) with
  | some v => .ok v
  | none =>
    match tryFencedBlock ("```json".data) text with
    | .hit v => .ok v
    | .crash => .error .substringNotFound
    | .miss =>
      match tryFencedBlock ("```".data) text with
      | .hit v => .ok v
      | .crash => .error .substringNotFound
      | .miss =>
        match tryBraces text with
        | some v => .ok v
        | none =>
          match repair (String.mk text) with
          | some v => .ok v
          | none => .error (.couldNotParse (String.mk (text.take 200)))

/-- Python `str(e)` for the two `ValueError`s of
`_parse_json_response`. -/
def parseErrMsg : ParseJsonError → String
  | .substringNotFound => "substring not found"
  | .couldNotParse snippet =>
    "Could not parse JSON from LLM response: " ++ snippet

/-- Text appended to the user prompt before the single retry in
`BaseAgent._call_llm_json`. -/
def retrySuffix (errorMsg : String) : String :=
  "\n\nIMPORTANT: Your previous response was invalid JSON. Error: " ++
  errorMsg ++
  "\nPlease fix this error and respond ONLY with valid JSON. " ++
  "No markdown, no explanation, just the JSON object."

/-- Outcome of one `self.llm.call(...)` invocation as seen by an agent:
either response content, or a raised `LLMProviderError` (for example
the aggregate all-providers-failed error). -/
inductive LlmCallOutcome where
  | ok (content : String)
  | providerError (msg : String)

/-- Exception escaping `BaseAgent._call_llm_json`. -/
inductive AgentError where
  | parse (e : ParseJsonError)
  | provider (msg : String)

/-- Python `str(e)` of an exception escaping `_call_llm_json`. -/
def agentErrMsg : AgentError → String
  | .parse e => parseErrMsg e
  | .provider m => m

/-- BaseAgent._call_llm_json: the `for attempt in range(2)` loop,
unrolled.  `llm` maps the prompt sent to the outcome of
`self.llm.call`; parse failures (`ValueError` and its subclass
`json.JSONDecodeError`) on the first attempt trigger one retry with
the specific error message appended to the user prompt, a second parse
failure re-raises, and an `LLMProviderError` re-raises immediately on
either attempt.  Returns the list of prompts sent and the result. -/
def callLlmJson (repair : String → Option JsonVal)
    (llm : String → LlmCallOutcome) (userPrompt : String) :
    List String × Except AgentError JsonVal :=
  match llm userPrompt with
  | .providerError m => ([userPrompt], .error (.provider m))
  | .ok content =>
    match parseJsonResponse repair content with
    | .ok v => ([userPrompt], .ok v)
    | .error e =>
      let p2 := userPrompt ++ retrySuffix (parseErrMsg e)
      match llm p2 with
      | .providerError m => ([userPrompt, p2], .error (.provider m))
      | .ok content2 =>
        match parseJsonResponse repair content2 with
        | .ok v => ([userPrompt, p2], .ok v)
        | .error e2 => ([userPrompt, p2], .error (.parse e2))

/-- Python `str.lower()` (ASCII portion), written over the character
list so that it evaluates by kernel reduction. -/
def pyLower (s : String) : String :=
  String.mk (s.data.map Char.toLower)

/-- Python `result.get(key)` on a parsed JSON object (`json.loads`
builds a dict, so a repeated key keeps its last value). -/
def JsonVal.objGet : JsonVal → String → Option JsonVal
  | .obj fields, k => (fields.reverse.find? (fun f => f.1 = k)).map (fun f => f.2)
  | _, _ => none

/-- String payload of a JSON value, when it is a string. -/
def JsonVal.asString : JsonVal → Option String
  | .str s => some s
  | _ => none

/-- Numeric payload of a JSON value, when it is a number. -/
def JsonVal.asNum : JsonVal → Option ℚ
  | .num q => some q
  | _ => none

/-- Python `result.get("summary", "Analysis complete.")` (string view). -/
def getSummary (r : JsonVal) : String :=
  ((r.objGet "summary").bind JsonVal.asString).getD "Analysis complete."

/-- Python `float(result.get("overall_risk_score", 50))` (numeric view). -/
def getRiskScore (r : JsonVal) : ℚ :=
  ((r.objGet "overall_risk_score").bind JsonVal.asNum).getD 50

/-- Python `result.get("findings", [])` as a list of records. -/
def getFindingsArr (r : JsonVal) : List JsonVal :=
  match r.objGet "findings" with
  | some (.arr l) => l
  | _ => []

/-- One raw finding record consumed by `BaseAgent._extract_findings`:
a loosely-typed dict whose fields may be absent (`none`).  A present
field is assumed to carry its documented type (a record with, say, a
numeric `severity` would crash `f.get("severity", "medium").lower()`
in Python and is outside the behaviour under verification).  A
`requires_human_review` key may be present in the raw record but is
never read by the source. -/
structure RawFinding where
  finding_type : Option String
  title : Option String
  description : Option String
  severity : Option String
  confidence : Option ℚ
  evidence : Option (List JsonVal)
  industry_benchmark : Option JsonVal
  requires_human_review : Option Bool

/-- Normalized finding produced by `BaseAgent._extract_findings`. -/
structure Finding where
  agent_name : String
  finding_type : String
  title : String
  description : String
  severity : String
  confidence : ℚ
  evidence : List JsonVal
  industry_benchmark : JsonVal
  requires_human_review : Bool

/-- Typed view of a parsed JSON finding record. -/
def rawFindingOfJson (v : JsonVal) : RawFinding :=
  { finding_type := (v.objGet "finding_type").bind JsonVal.asString,
    title := (v.objGet "title").bind JsonVal.asString,
    description := (v.objGet "description").bind JsonVal.asString,
    severity := (v.objGet "severity").bind JsonVal.asString,
    confidence := (v.objGet "confidence").bind JsonVal.asNum,
    evidence := match v.objGet "evidence" with
      | some (.arr l) => some l
      | _ => none,
    industry_benchmark := v.objGet "industry_benchmark",
    requires_human_review := match v.objGet "requires_human_review" with
      | some (.bool b) => some b
      | _ => none }

/-- Loop body of `BaseAgent._extract_findings` for one record.  Note
the two distinct severity defaults in the source: `"medium"` for the
stored field, `""` inside the `requires_human_review` computation. -/
def normalizeFinding (agentName : String) (f : RawFinding) : Finding :=
  { agent_name := agentName,
    finding_type := f.finding_type.getD "unknown",
    title := f.title.getD "Untitled Finding",
    description := f.description.getD "",
    severity := pyLower (f.severity.getD "medium"),
    confidence := f.confidence.getD 50,
    evidence := f.evidence.getD [],
    industry_benchmark := f.industry_benchmark.getD (.obj []),
    requires_human_review :=
      decide (f.confidence.getD 50 < 70) ||
      decide (pyLower (f.severity.getD "") = "critical") }

/-- BaseAgent._extract_findings. -/
def extractFindings (agentName : String) (findings : List RawFinding) :
    List Finding :=
  findings.map (normalizeFinding agentName)

/-- Workflow state: the fields of the LangGraph `ForensicState` dict that
the verified parts of `src/graph/workflow.py` and
`src/agents/forensic.py` read or write.  Score fields are `Option ℚ`:
`none` models an absent key, mirroring `state.get(...)`. -/
structure ForensicState where
  forensic_findings : List Finding
  forensic_summary : String
  forensic_risk_score : Option ℚ
  management_quality_score : Option ℚ
  rpt_risk_score : Option ℚ
  market_sentiment_score : Option ℚ
  needs_reinvestigation : Bool
  iteration_count : Nat
  max_iterations : Nat
  errors : List String
  research_path : List String
  status : String
  overall_risk_score : ℚ

/-- Initial loop counter set by `ForensicWorkflow.analyze`
(`"iteration_count": 0`). -/
def initialIterationCount : Nat := 0

/-- Default loop bound set by `ForensicWorkflow.analyze`
(`"max_iterations": 3`). -/
def initialMaxIterations : Nat := 3

/-- ForensicWorkflow._should_reinvestigate: returns the edge label and
the (possibly updated) state.  The counter is incremented exactly when
the `"reinvestigate"` label is returned. -/
def shouldReinvestigate (s : ForensicState) : String × ForensicState :=
  let iteration := s.iteration_count
  let maxIter := s.max_iterations
  if s.needs_reinvestigation ∧ iteration < maxIter then
    ("reinvestigate", { s with iteration_count := iteration + 1 })
  else
    ("proceed", s)

/-- Number of consecutive `"reinvestigate"` decisions taken from state
`s`, following the updated state each time (the critic may re-request
reinvestigation on every pass; the flag is left untouched here, which is
the worst case for termination).  `fuel` bounds the unrolling. -/
def reinvestLoopCount : Nat → ForensicState → Nat
  | 0, _ => 0
  | Nat.succ fuel, s =>
    if (shouldReinvestigate s).1 = "reinvestigate" then
      1 + reinvestLoopCount fuel (shouldReinvestigate s).2
    else 0

/-- Unconditional edges of the graph built by
`ForensicWorkflow._build_graph` (`workflow.add_edge` calls); `"END"`
stands for LangGraph's `END` sentinel. -/
def graphEdges : List (String × String) :=
  [("fetch_data", "load_memory"),
   ("load_memory", "forensic"),
   ("load_memory", "management"),
   ("load_memory", "rpt"),
   ("load_memory", "market_intel"),
   ("forensic", "aggregate"),
   ("management", "aggregate"),
   ("rpt", "aggregate"),
   ("market_intel", "aggregate"),
   ("aggregate", "critic"),
   ("report", "END")]

/-- Conditional edges out of the `critic` node
(`workflow.add_conditional_edges(..., \x7b"reinvestigate": "forensic",
"proceed": "report"\x7d)`). -/
def criticConditionalEdges : List (String × String) :=
  [("reinvestigate", "forensic"), ("proceed", "report")]

/-- Nodes the graph dispatches in parallel after `load_memory` (the full
analysis task set). -/
def agentDispatchNodes : List String :=
  (graphEdges.filter (fun e => e.1 = "load_memory")).map (fun e => e.2)

/-- Nodes dispatched when the `"reinvestigate"` label is returned. -/
def reinvestigateTargets : List String :=
  (criticConditionalEdges.filter (fun e => e.1 = "reinvestigate")).map
    (fun e => e.2)

/-- Weighted overall risk score of `ForensicWorkflow._generate_report`,
as a function of the four per-task score entries read from the state.
A score participates only when its state entry is truthy; the
management-quality and market-sentiment scores are inverted
(`risk = 100 - score`) before weighting.  The result is
`round(overall_risk, 1)`. -/
def overallRiskScore (forensic mgmtQuality rpt marketSentiment : Option ℚ) :
    ℚ :=
  let scores : List (ℚ × ℚ) :=
    (if truthy forensic then [(forensic.getD 0, 35/100)] else []) ++
    (if truthy mgmtQuality then [(100 - mgmtQuality.getD 0, 30/100)] else []) ++
    (if truthy rpt then [(rpt.getD 0, 35/100)] else []) ++
    (if truthy marketSentiment
      then [(100 - marketSentiment.getD 0, 20/100)] else [])
  let overall : ℚ :=
    if scores = [] then 50
    else (scores.map (fun p => p.1 * p.2)).sum /
      (scores.map (fun p => p.2)).sum
  pyRound1 overall

/-- ForensicWorkflow._risk_level. -/
def riskLevel (score : ℚ) : String :=
  if score ≥ 75 then "CRITICAL"
  else if score ≥ 55 then "HIGH"
  else if score ≥ 35 then "MODERATE"
  else "LOW"

/-- A past-feedback record as consumed by
`calculate_adjusted_confidence`: a dict whose `"score"` key may be
absent (then `f.get("score", 0.7)` yields `0.7`). -/
structure FeedbackRecord where
  score : Option ℚ
  deriving DecidableEq

/-- Similarity score of a record (`f.get("score", 0.7)`). -/
def recScore (f : FeedbackRecord) : ℚ :=
  f.score.getD (7/10)

/-- Mean similarity score of a list of feedback records. -/
def avgRecScore (l : List FeedbackRecord) : ℚ :=
  (l.map recScore).sum / l.length

/-- calculate_adjusted_confidence from `src/memory/confidence.py`:
returns `(adjusted_confidence, total_adjustment)`.  The adjustment is
accumulated as a fraction, converted to percentage points, added to the
base, and the sum is clamped to `[0, 100]`. -/
def calculate_adjusted_confidence (base_confidence : ℚ)
    (similar_approved similar_rejected : List FeedbackRecord)
    (matching_patterns : List FeedbackRecord) : ℚ × ℚ :=
  let adjustment : ℚ := 0
  let adjustment :=
    if similar_approved ≠ [] then
      adjustment + min (20/100) (avgRecScore similar_approved * (25/100))
    else adjustment
  let adjustment :=
    if similar_rejected ≠ [] then
      adjustment - min (30/100) (avgRecScore similar_rejected * (35/100))
    else adjustment
  let adjustment :=
    if matching_patterns ≠ [] then
      adjustment + min (15/100) ((matching_patterns.length : ℚ) * (5/100))
    else adjustment
  let adjusted := base_confidence + adjustment * 100
  (max 0 (min 100 adjusted), adjustment * 100)

/-- Outcome of one configured provider's call function
(`provider["call"](...)` in `LLMProvider.call`): a successful response
content, a `RateLimitError`, or any other exception with message `msg`. -/
inductive ProviderOutcome where
  | ok (content : String)
  | rateLimited (msg : String)
  | failed (msg : String)
  deriving DecidableEq

/-- One entry of the provider chain built by
`LLMProvider._build_provider_chain`: its name and the outcome its call
function produces for the request at hand. -/
structure Provider where
  name : String
  outcome : ProviderOutcome
  deriving DecidableEq

/-- Whether this provider's call raises (rate limit or otherwise). -/
def Provider.fails (p : Provider) : Bool :=
  match p.outcome with
  | .ok _ => false
  | .rateLimited _ => true
  | .failed _ => true

/-- Error string appended for a failing provider: rate limits append
`"name: rate limited"`, other exceptions append `"name: msg"`. -/
def providerErrString (p : Provider) : String :=
  match p.outcome with
  | .ok _ => ""
  | .rateLimited _ => p.name ++ ": rate limited"
  | .failed m => p.name ++ ": " ++ m

/-- Aggregate error message raised when every provider fails. -/
def allFailedMsg (errs : List String) : String :=
  "All LLM providers failed. Errors: " ++ String.intercalate "; " errs

/-- Loop body of `LLMProvider.call`: providers are tried in order
(`self._current_idx` is `0` and never reassigned, so the order is the
chain order), each exactly once; the first success returns; both error
kinds append to `errors` and continue.  Returns the names attempted and
the result. -/
def callGo : List Provider → List String → List String →
    List String × Except String String
  | [], attempted, errs => (attempted, .error (allFailedMsg errs))
  | p :: rest, attempted, errs =>
    match p.outcome with
    | .ok c => (attempted ++ [p.name], .ok c)
    | .rateLimited _ =>
      callGo rest (attempted ++ [p.name]) (errs ++ [providerErrString p])
    | .failed _ =>
      callGo rest (attempted ++ [p.name]) (errs ++ [providerErrString p])

/-- LLMProvider.call: attempted provider names plus the final result. -/
def LLMProvider.call (providers : List Provider) :
    List String × Except String String :=
  callGo providers [] []

/-- Report node (`ForensicWorkflow._generate_report`), restricted to the
state fields under verification: writes the weighted overall risk score
and marks the run complete.  The report dict additionally carries
`riskLevel` of that score. -/
def generateReport (s : ForensicState) : ForensicState :=
  { s with
    overall_risk_score :=
      overallRiskScore s.forensic_risk_score s.management_quality_score
        s.rpt_risk_score s.market_sentiment_score,
    status := "complete" }

/-- ForensicAccountingAgent.analyze, its `try/except` around
`_call_llm_json`.  Prompt assembly (`FORENSIC_USER.format`, payload
truncation, optional web search) does not affect this control flow and
the assembled prompt is taken as the `userPrompt` input. -/
def forensicAnalyze (repair : String → Option JsonVal)
    (llm : String → LlmCallOutcome) (userPrompt : String)
    (s : ForensicState) : ForensicState :=
  match (callLlmJson repair llm userPrompt).2 with
  | .ok result =>
    { s with
      forensic_findings :=
        extractFindings "forensic" ((getFindingsArr result).map rawFindingOfJson),
      forensic_summary := getSummary result,
      forensic_risk_score := some (getRiskScore result),
      research_path := s.research_path ++ ["forensic"] }
  | .error e =>
    { s with
      forensic_findings := [],
      forensic_summary := "Analysis failed: " ++ agentErrMsg e,
      forensic_risk_score := some 0,
      errors := s.errors ++ ["Forensic agent error: " ++ agentErrMsg e] }

/-- A concrete fresh run state (as set up by `ForensicWorkflow.analyze`)
used to instantiate universally quantified theorems. -/
def sampleState : ForensicState :=
  { forensic_findings := []
    forensic_summary := ""
    forensic_risk_score := none
    management_quality_score := none
    rpt_risk_score := none
    market_sentiment_score := none
    needs_reinvestigation := true
    iteration_count := 0
    max_iterations := 3
    errors := []
    research_path := []
    status := "running"
    overall_risk_score := 0 }

/-- The approved-records list of the spec example:
`[\x7bscore: 0.9\x7d, \x7bscore: 0.85\x7d]`. -/
def approvedSample : List FeedbackRecord :=
  [⟨some (9/10)⟩, ⟨some (85/100)⟩]

/-- A concrete provider chain: the first provider is rate limited, the
second raises a generic error, the third succeeds. -/
def sampleProviders : List Provider :=
  [⟨"gemini", .rateLimited "Gemini rate limit reached"⟩,
   ⟨"antigravity", .failed "Antigravity error 500: boom"⟩,
   ⟨"openrouter", .ok "hello"⟩]

/-- A concrete provider chain in which every provider fails. -/
def sampleProvidersAllFail : List Provider :=
  [⟨"gemini", .rateLimited "Gemini rate limit reached"⟩,
   ⟨"antigravity", .failed "Antigravity error 500: boom"⟩]

/-- Provider text whose ````` ```json ````` fence is never closed while
a brace-delimited JSON object is present. -/
def c7Input : String := "```json \x7b\"a\": 1\x7d"

/-- A raw finding record with every optional field absent except a
(source-supplied, ignored) `requires_human_review` flag. -/
def sampleRaw : RawFinding :=
  { finding_type := none
    title := none
    description := none
    severity := none
    confidence := none
    evidence := none
    industry_benchmark := none
    requires_human_review := some false }

/-! Helper lemmas. -/

theorem ratFloor_eq_intFloor (q : ℚ) : q.floor = ⌊q⌋ := by
  rw [Rat.floor_def', Rat.floor_def]

theorem pyRound1_eq_self (x : ℚ) (n : ℤ) (h : x * 10 = (n : ℚ)) :
    pyRound1 x = x := by
  have hfl : (x * 10).floor = n := by
    rw [ratFloor_eq_intFloor, h, Int.floor_intCast]
  unfold pyRound1
  rw [hfl, h, sub_self]
  rw [if_neg (by norm_num), if_pos (by norm_num)]
  field_simp
  linarith [h]

theorem shouldReinvestigate_fst_iff (s : ForensicState) :
    (shouldReinvestigate s).1 = "reinvestigate" ↔
      (s.needs_reinvestigation = true ∧
        s.iteration_count < s.max_iterations) := by
  by_cases hc : s.needs_reinvestigation = true ∧
      s.iteration_count < s.max_iterations
  · simp [shouldReinvestigate, hc]
  · simp [shouldReinvestigate, hc]

theorem shouldReinvestigate_snd_of_taken (s : ForensicState)
    (h : (shouldReinvestigate s).1 = "reinvestigate") :
    (shouldReinvestigate s).2 =
      { s with iteration_count := s.iteration_count + 1 } := by
  rcases (shouldReinvestigate_fst_iff s).1 h with ⟨hb, hlt⟩
  simp [shouldReinvestigate, hb, hlt]

theorem reinvestLoopCount_le (fuel : Nat) :
    ∀ s : ForensicState,
      reinvestLoopCount fuel s ≤
        s.max_iterations - s.iteration_count := by
  induction fuel with
  | zero =>
    intro s
    simp [reinvestLoopCount]
  | succ n ih =>
    intro s
    by_cases h : (shouldReinvestigate s).1 = "reinvestigate"
    · have heq : reinvestLoopCount (n + 1) s =
          if (shouldReinvestigate s).1 = "reinvestigate" then
            1 + reinvestLoopCount n (shouldReinvestigate s).2
          else 0 := rfl
      have h3 : reinvestLoopCount (n + 1) s =
          1 + reinvestLoopCount n (shouldReinvestigate s).2 := by
        rw [heq, if_pos h]
      rcases (shouldReinvestigate_fst_iff s).1 h with ⟨_, hlt⟩
      rw [h3, shouldReinvestigate_snd_of_taken s h]
      have h4 :
          reinvestLoopCount n
              { s with iteration_count := s.iteration_count + 1 } ≤
            s.max_iterations - (s.iteration_count + 1) :=
        ih { s with iteration_count := s.iteration_count + 1 }
      omega
    · have heq : reinvestLoopCount (n + 1) s =
          if (shouldReinvestigate s).1 = "reinvestigate" then
            1 + reinvestLoopCount n (shouldReinvestigate s).2
          else 0 := rfl
      rw [heq, if_neg h]
      exact Nat.zero_le _

theorem overallRisk_sample_eq :
    overallRiskScore (some 80) (some 40) (some 50) none = 63.5 := by
  have h2 : overallRiskScore (some 80) (some 40) (some 50) none =
      pyRound1 ((80 * (35/100) + ((100 - 40) * (30/100) + 50 * (35/100))) /
        ((35/100) + ((30/100) + (35/100)))) := by
    simp [overallRiskScore, truthy]
  rw [h2]
  have h3 : ((80 : ℚ) * (35/100) + ((100 - 40) * (30/100) + 50 * (35/100))) /
      ((35/100) + ((30/100) + (35/100))) = 127/2 := by norm_num
  rw [h3, pyRound1_eq_self (127/2) 635 (by norm_num)]
  norm_num

/-! Claim theorems. -/

/-- C1: the workflow takes the reinvestigation edge if and only if the
critic's `needs_reinvestigation` flag is true and the loop counter
`iteration_count` is strictly below `max_iterations`; taking the edge
increments the counter; hence, from the initial counter value `0`, the
reinvestigation loop runs at most `max_iterations` passes even if
reinvestigation is requested on every pass, and the bound installed by
`ForensicWorkflow.analyze` defaults to `3`. -/
theorem C1_reinvestigate_iff_and_bounded (s : ForensicState) (fuel : Nat)
    (h0 : s.iteration_count = initialIterationCount) :
    ((shouldReinvestigate s).1 = "reinvestigate" ↔
      (s.needs_reinvestigation = true ∧
        s.iteration_count < s.max_iterations)) ∧
    ((shouldReinvestigate s).1 = "reinvestigate" →
      (shouldReinvestigate s).2.iteration_count = s.iteration_count + 1) ∧
    reinvestLoopCount fuel s ≤ s.max_iterations ∧
    initialMaxIterations = 3 := by
  refine ⟨shouldReinvestigate_fst_iff s, ?_, ?_, rfl⟩
  · intro h
    rw [shouldReinvestigate_snd_of_taken s h]
  · have hle := reinvestLoopCount_le fuel s
    rw [h0] at hle
    simpa [initialIterationCount] using hle

/-- Witness for C1: a fresh state with the flag set, counter `0` and the
default bound `3` performs at most `3` reinvestigation passes. -/
theorem C1_witness : reinvestLoopCount 10 sampleState ≤ 3 :=
  (C1_reinvestigate_iff_and_bounded sampleState 10 rfl).2.2.1

/-- C2 fails as stated: with a validation verdict whose re-investigation
requests name only the `rpt` task, the reinvestigation edge still
dispatches the `forensic` node — which is not among the named tasks —
so the dispatched set is not the set of tasks named in the verdict. -/
theorem C2_counterexample :
    "forensic" ∈ reinvestigateTargets ∧
    "forensic" ∉ (["rpt"] : List String) ∧
    reinvestigateTargets ≠ ["rpt"] := by
  refine ⟨?_, ?_, ?_⟩ <;> decide

/-- C2 amended: taking the reinvestigation edge re-dispatches exactly
the single hard-wired `forensic` node — independent of which tasks the
verdict names, and not the full task set — and the `forensic` node
returns to the `aggregate` barrier. -/
theorem C2_fixed_forensic_redispatch :
    reinvestigateTargets = ["forensic"] ∧
    agentDispatchNodes = ["forensic", "management", "rpt", "market_intel"] ∧
    reinvestigateTargets ≠ agentDispatchNodes ∧
    ("forensic", "aggregate") ∈ graphEdges := by
  refine ⟨?_, ?_, ?_, ?_⟩ <;> decide

/-- C3 fails as stated: with forensic risk 80, management quality 40
(inverted to risk 60), rpt risk 50 and no market sentiment score, the
report's weighted mean is not 62.0 (the quoted formula evaluates to
63.5). -/
theorem C3_counterexample :
    overallRiskScore (some 80) (some 40) (some 50) none ≠ 62 := by
  rw [overallRisk_sample_eq]
  norm_num

/-- C3 amended: with per-task scores forensic 80 (weight 0.35),
management quality 40 inverted to risk 60 (weight 0.30), rpt 50
(weight 0.35) and no market sentiment score, report generation computes
`(80*0.35 + 60*0.30 + 50*0.35)/(0.35+0.30+0.35) = 63.5` and maps it to
risk level `HIGH`. -/
theorem C3_weighted_mean_sample :
    overallRiskScore (some 80) (some 40) (some 50) none = 63.5 ∧
    riskLevel (overallRiskScore (some 80) (some 40) (some 50) none) =
      "HIGH" := by
  refine ⟨overallRisk_sample_eq, ?_⟩
  rw [overallRisk_sample_eq]
  unfold riskLevel
  rw [if_neg (by norm_num), if_pos (by norm_num)]

/-- C10: a per-task score equal to `0` is excluded from the weighted
mean exactly as an absent score is (presence is Python truthiness), and
when every score is absent or zero the overall risk score is the fixed
default `50.0`. -/
theorem C10_zero_score_excluded (f m r mk : Option ℚ) :
    overallRiskScore (some 0) m r mk = overallRiskScore none m r mk ∧
    overallRiskScore f (some 0) r mk = overallRiskScore f none r mk ∧
    overallRiskScore f m (some 0) mk = overallRiskScore f m none mk ∧
    overallRiskScore f m r (some 0) = overallRiskScore f m r none ∧
    ((truthy f = false ∧ truthy m = false ∧ truthy r = false ∧
        truthy mk = false) →
      overallRiskScore f m r mk = 50) := by
  have hz : truthy (some 0) = false := by simp [truthy]
  have hn : truthy none = false := rfl
  refine ⟨?_, ?_, ?_, ?_, ?_⟩
  · simp only [overallRiskScore, hz, hn, Bool.false_eq_true, if_false]
  · simp only [overallRiskScore, hz, hn, Bool.false_eq_true, if_false]
  · simp only [overallRiskScore, hz, hn, Bool.false_eq_true, if_false]
  · simp only [overallRiskScore, hz, hn, Bool.false_eq_true, if_false]
  · rintro ⟨h1, h2, h3, h4⟩
    unfold overallRiskScore
    rw [h1, h2, h3, h4]
    simp only [Bool.false_eq_true, if_false, List.append_nil, List.nil_append,
      if_true]
    rw [pyRound1_eq_self 50 500 (by norm_num)]

/-- Witness for C10: with a zero forensic score and a zero rpt score and
the other scores absent, the overall risk score is the default `50`. -/
theorem C10_witness :
    overallRiskScore (some 0) none (some 0) none = 50 :=
  (C10_zero_score_excluded (some 0) none (some 0) none).2.2.2.2
    ⟨by simp [truthy], rfl, by simp [truthy], rfl⟩

/-- C4: the adjusted confidence returned by
`calculate_adjusted_confidence` lies in `[0, 100]` for every base
confidence (any magnitude or sign) and all record lists. -/
theorem C4_adjusted_confidence_in_range (base : ℚ)
    (approved rejected patterns : List FeedbackRecord) :
    0 ≤ (calculate_adjusted_confidence base approved rejected patterns).1 ∧
    (calculate_adjusted_confidence base approved rejected patterns).1 ≤
      100 := by
  constructor
  · exact le_max_left 0 _
  · exact max_le (by norm_num) (min_le_left _ _)

theorem min_boost_lt_min_penalty (a : ℚ) (ha : 0 < a) :
    min (20/100 : ℚ) (a * (25/100)) < min (30/100 : ℚ) (a * (35/100)) := by
  rcases le_or_lt (a * (35/100)) (30/100) with hc | hc
  · rw [min_eq_right hc]
    calc min (20/100 : ℚ) (a * (25/100)) ≤ a * (25/100) := min_le_right _ _
      _ < a * (35/100) := by nlinarith
  · rw [min_eq_left hc.le]
    calc min (20/100 : ℚ) (a * (25/100)) ≤ 20/100 := min_le_left _ _
      _ < 30/100 := by norm_num

/-- C5: with approved records of scores 0.9 and 0.85 and nothing else,
the adjustment delta is strictly positive; the same records as rejected
give a strictly negative delta of strictly greater magnitude; and in
general, for any nonempty record list with positive mean similarity the
rejected-only penalty magnitude strictly exceeds the approved-only
boost (penalty cap 0.30 against boost cap 0.20). -/
theorem C5_penalty_outweighs_boost (b : ℚ) (l : List FeedbackRecord)
    (hne : l ≠ []) (hpos : 0 < avgRecScore l) :
    0 < (calculate_adjusted_confidence 60 approvedSample [] []).2 ∧
    (calculate_adjusted_confidence 60 [] approvedSample []).2 < 0 ∧
    -(calculate_adjusted_confidence 60 [] approvedSample []).2 >
      (calculate_adjusted_confidence 60 approvedSample [] []).2 ∧
    -(calculate_adjusted_confidence b [] l []).2 >
      (calculate_adjusted_confidence b l [] []).2 := by
  have hs : avgRecScore approvedSample = 7/8 := by
    norm_num [avgRecScore, approvedSample, recScore]
  have hsample : approvedSample ≠ [] := by
    simp [approvedSample]
  have hemp : ¬ (([] : List FeedbackRecord) ≠ []) := by simp
  have hgen : ∀ (b' : ℚ) (l' : List FeedbackRecord), l' ≠ [] →
      0 < avgRecScore l' →
      -(calculate_adjusted_confidence b' [] l' []).2 >
        (calculate_adjusted_confidence b' l' [] []).2 := by
    intro b' l' hne' hpos'
    have hkey := min_boost_lt_min_penalty (avgRecScore l') hpos'
    simp only [calculate_adjusted_confidence, ne_eq, hne', eq_self_iff_true,
      not_false_eq_true, not_true_eq_false, if_true, if_false]
    linarith
  have hA : (calculate_adjusted_confidence 60 approvedSample [] []).2 =
      20 := by
    have hmin : min (20/100 : ℚ) ((7/8) * (25/100)) = 20/100 := by
      rw [min_eq_left (by norm_num)]
    simp only [calculate_adjusted_confidence, ne_eq, hsample, eq_self_iff_true,
      not_false_eq_true, not_true_eq_false, if_true, if_false, hs, zero_add,
      hmin]
    norm_num
  have hR : (calculate_adjusted_confidence 60 [] approvedSample []).2 =
      -30 := by
    have hmin : min (30/100 : ℚ) ((7/8) * (35/100)) = 30/100 := by
      rw [min_eq_left (by norm_num)]
    simp only [calculate_adjusted_confidence, ne_eq, hsample, eq_self_iff_true,
      not_false_eq_true, not_true_eq_false, if_true, if_false, hs, zero_sub,
      hmin]
    norm_num
  refine ⟨?_, ?_, ?_, hgen b l hne hpos⟩
  · rw [hA]
    norm_num
  · rw [hR]
    norm_num
  · rw [hA, hR]
    norm_num

/-- Witness for C5 at the spec's concrete record list. -/
theorem C5_witness :
    -(calculate_adjusted_confidence 60 [] approvedSample []).2 >
      (calculate_adjusted_confidence 60 approvedSample [] []).2 :=
  (C5_penalty_outweighs_boost 60 approvedSample (by simp [approvedSample])
    (by norm_num [avgRecScore, approvedSample, recScore])).2.2.2

theorem callGo_cons_ok (p : Provider) (rest : List Provider)
    (att errs : List String) (c : String) (hout : p.outcome = .ok c) :
    callGo (p :: rest) att errs = (att ++ [p.name], .ok c) := by
  simp [callGo, hout]

theorem callGo_cons_fails (p : Provider) (rest : List Provider)
    (att errs : List String) (hf : p.fails = true) :
    callGo (p :: rest) att errs =
      callGo rest (att ++ [p.name]) (errs ++ [providerErrString p]) := by
  cases hout : p.outcome with
  | ok c => simp [Provider.fails, hout] at hf
  | rateLimited m => simp [callGo, hout, providerErrString]
  | failed m => simp [callGo, hout, providerErrString]

theorem callGo_spec (ps : List Provider) :
    ∀ att errs : List String,
      ((callGo ps att errs).1 =
        att ++ (ps.takeWhile Provider.fails).map Provider.name ++
          (((ps.dropWhile Provider.fails).head?).map Provider.name).toList) ∧
      (∀ p, (ps.dropWhile Provider.fails).head? = some p →
        ∃ c, p.outcome = .ok c ∧ (callGo ps att errs).2 = .ok c) ∧
      ((∀ p ∈ ps, p.fails = true) →
        (callGo ps att errs).2 =
          .error (allFailedMsg (errs ++ ps.map providerErrString))) := by
  induction ps with
  | nil =>
    intro att errs
    refine ⟨by simp [callGo], ?_, ?_⟩
    · intro p hp
      simp at hp
    · intro _
      simp [callGo]
  | cons p rest ih =>
    intro att errs
    by_cases hf : p.fails = true
    · have hstep := callGo_cons_fails p rest att errs hf
      obtain ⟨ih1, ih2, ih3⟩ :=
        ih (att ++ [p.name]) (errs ++ [providerErrString p])
      refine ⟨?_, ?_, ?_⟩
      · rw [hstep, ih1]
        simp [List.takeWhile_cons, List.dropWhile_cons, hf,
          List.append_assoc]
      · intro q hq
        rw [hstep]
        apply ih2
        simpa [List.dropWhile_cons, hf] using hq
      · intro hall
        rw [hstep, ih3 (fun q hq => hall q (List.mem_cons_of_mem _ hq))]
        simp [List.map_cons, List.append_assoc]
    · have hf' : p.fails = false := by
        simpa using hf
      obtain ⟨c, hout⟩ : ∃ c, p.outcome = .ok c := by
        cases hx : p.outcome with
        | ok c => exact ⟨c, rfl⟩
        | rateLimited m => simp [Provider.fails, hx] at hf'
        | failed m => simp [Provider.fails, hx] at hf'
      have hstep := callGo_cons_ok p rest att errs c hout
      refine ⟨?_, ?_, ?_⟩
      · rw [hstep]
        simp [List.takeWhile_cons, List.dropWhile_cons, hf']
      · intro q hq
        simp only [List.dropWhile_cons, hf', Bool.false_eq_true, if_false,
          List.head?_cons, Option.some.injEq] at hq
        subst hq
        exact ⟨c, hout, by rw [hstep]⟩
      · intro hall
        exfalso
        have hh := hall p (List.mem_cons_self p rest)
        rw [hh] at hf'
        exact absurd hf' (by simp)

/-- C6: the providers of a (nonempty) chain are attempted in priority
order, each at most once — the attempted names are the failing front of
the chain followed by the first success, a prefix of the chain's name
list — the first success's response is returned, a rate-limit error and
a generic provider error both fall through to the next provider, and
when every provider fails the call raises a single aggregate error
embedding each provider's individual failure string. -/
theorem C6_provider_fallback_chain (ps : List Provider) (hne : ps ≠ []) :
    ((LLMProvider.call ps).1 =
      (ps.takeWhile Provider.fails).map Provider.name ++
        (((ps.dropWhile Provider.fails).head?).map Provider.name).toList) ∧
    (∃ t, ps.map Provider.name = (LLMProvider.call ps).1 ++ t) ∧
    (∀ p, (ps.dropWhile Provider.fails).head? = some p →
      ∃ c, p.outcome = .ok c ∧ (LLMProvider.call ps).2 = .ok c) ∧
    ((∀ p ∈ ps, p.fails = true) →
      (LLMProvider.call ps).2 =
        .error (allFailedMsg (ps.map providerErrString))) := by
  obtain ⟨h1, h2, h3⟩ := callGo_spec ps [] []
  have h1' : (LLMProvider.call ps).1 =
      (ps.takeWhile Provider.fails).map Provider.name ++
        (((ps.dropWhile Provider.fails).head?).map Provider.name).toList := by
    simpa [LLMProvider.call] using h1
  have h3' : (∀ p ∈ ps, p.fails = true) →
      (LLMProvider.call ps).2 =
        .error (allFailedMsg (ps.map providerErrString)) := by
    intro hall
    simpa [LLMProvider.call] using h3 hall
  refine ⟨h1', ?_, h2, h3'⟩
  have hsplit : ps.map Provider.name =
      (ps.takeWhile Provider.fails).map Provider.name ++
        (ps.dropWhile Provider.fails).map Provider.name := by
    rw [← List.map_append, List.takeWhile_append_dropWhile]
  cases hd : ps.dropWhile Provider.fails with
  | nil =>
    refine ⟨[], ?_⟩
    rw [hsplit, hd, h1', hd]
    simp
  | cons q qs =>
    refine ⟨qs.map Provider.name, ?_⟩
    rw [hsplit, hd, h1', hd]
    simp

/-- Witness for C6: in a chain where the first provider is rate limited
and the second raises, the third provider's response is returned. -/
theorem C6_witness : (LLMProvider.call sampleProviders).2 = .ok "hello" := by
  obtain ⟨_, _, h3, _⟩ :=
    C6_provider_fallback_chain sampleProviders (by decide)
  obtain ⟨c, hc, hr⟩ := h3 ⟨"openrouter", .ok "hello"⟩ (by decide)
  injection hc with h
  subst h
  exact hr

/-- C7: the strict four-strategy recovery fails on the code as written.
On the input ````` ```json \x7b"a": 1\x7d ````` (a fence marker that is
never closed), the `str.index` lookup for the closing fence raises an
uncaught `ValueError("substring not found")` before strategies 3 and 4
run and without the truncated-snippet parse error — for every possible
behaviour of the repair library — even though strategy 3 (the substring
from the first `\x7b` to the last `\x7d`) parses successfully on the
very same text. -/
theorem C7_unclosed_fence_crash (repair : String → Option JsonVal) :
    parseJsonResponse repair c7Input = .error .substringNotFound ∧
    tryBraces (pyStrip c7Input.data) = some (.obj [("a", .num 1)]) :=
  ⟨rfl, rfl⟩

/-- C8: when structured-output recovery fails on the first response,
`_call_llm_json` retries exactly once with the specific parse error
appended to the prompt; when the retry's response also fails to parse,
the raised error is caught by the forensic agent, which fills its
namespace with an empty findings list, an error-message summary and
score 0, appends to the run's error list, and the run still reaches
report generation (the report node completes on the resulting state). -/
theorem C8_parse_retry_then_graceful_degradation
    (repair : String → Option JsonVal) (llm : String → LlmCallOutcome)
    (p c1 c2 : String) (e1 e2 : ParseJsonError) (s : ForensicState)
    (h1 : llm p = .ok c1)
    (h2 : parseJsonResponse repair c1 = .error e1)
    (h3 : llm (p ++ retrySuffix (parseErrMsg e1)) = .ok c2)
    (h4 : parseJsonResponse repair c2 = .error e2) :
    (callLlmJson repair llm p).1 =
      [p, p ++ retrySuffix (parseErrMsg e1)] ∧
    (callLlmJson repair llm p).2 = .error (.parse e2) ∧
    (forensicAnalyze repair llm p s).forensic_findings = [] ∧
    (forensicAnalyze repair llm p s).forensic_summary =
      "Analysis failed: " ++ parseErrMsg e2 ∧
    (forensicAnalyze repair llm p s).forensic_risk_score = some 0 ∧
    (forensicAnalyze repair llm p s).errors =
      s.errors ++ ["Forensic agent error: " ++ parseErrMsg e2] ∧
    (generateReport (forensicAnalyze repair llm p s)).status =
      "complete" := by
  have hc : callLlmJson repair llm p =
      ([p, p ++ retrySuffix (parseErrMsg e1)], .error (.parse e2)) := by
    simp only [callLlmJson, h1, h2, h3, h4]
  have ha : forensicAnalyze repair llm p s =
      { s with
        forensic_findings := [],
        forensic_summary := "Analysis failed: " ++ parseErrMsg e2,
        forensic_risk_score := some 0,
        errors := s.errors ++
          ["Forensic agent error: " ++ parseErrMsg e2] } := by
    unfold forensicAnalyze
    rw [hc]
    rfl
  refine ⟨by rw [hc], by rw [hc], ?_, ?_, ?_, ?_, ?_⟩ <;>
    simp [ha, generateReport]

/-- Witness for C8: a provider that always answers unparseable text
makes the forensic agent degrade gracefully and the report node still
completes. -/
theorem C8_witness :
    (callLlmJson (fun _ => none) (fun _ => .ok "not json") "PROMPT").1 =
      ["PROMPT", "PROMPT" ++ retrySuffix (parseErrMsg
        (.couldNotParse "not json"))] ∧
    (forensicAnalyze (fun _ => none) (fun _ => .ok "not json") "PROMPT"
      sampleState).forensic_summary =
      "Analysis failed: Could not parse JSON from LLM response: not json" ∧
    (generateReport (forensicAnalyze (fun _ => none)
      (fun _ => .ok "not json") "PROMPT" sampleState)).status =
      "complete" := by
  obtain ⟨w1, _, _, w4, _, _, w7⟩ :=
    C8_parse_retry_then_graceful_degradation (fun _ => none)
      (fun _ => .ok "not json") "PROMPT" "not json" "not json"
      (.couldNotParse "not json") (.couldNotParse "not json") sampleState
      rfl rfl rfl rfl
  exact ⟨w1, w4, w7⟩

/-- C9: normalization maps each raw record with the fixed defaults —
missing `finding_type` becomes `"unknown"`, missing `severity` becomes
`"medium"`, severity is case-folded to lowercase, `confidence` defaults
to 50, `evidence` defaults to the empty list — and
`requires_human_review` is recomputed as
`confidence < 70 OR severity = "critical"`, never read from the source
record. -/
theorem C9_finding_normalization (agent : String) (f : RawFinding)
    (fs : List RawFinding) :
    extractFindings agent fs = fs.map (normalizeFinding agent) ∧
    (f.finding_type = none →
      (normalizeFinding agent f).finding_type = "unknown") ∧
    (f.severity = none → (normalizeFinding agent f).severity = "medium") ∧
    (normalizeFinding agent f).severity =
      pyLower (f.severity.getD "medium") ∧
    (f.confidence = none → (normalizeFinding agent f).confidence = 50) ∧
    (f.evidence = none → (normalizeFinding agent f).evidence = []) ∧
    ((normalizeFinding agent f).requires_human_review =
      (decide ((normalizeFinding agent f).confidence < 70) ||
        decide ((normalizeFinding agent f).severity = "critical"))) ∧
    (∀ b, normalizeFinding agent { f with requires_human_review := b } =
      normalizeFinding agent f) := by
  refine ⟨rfl, ?_, ?_, rfl, ?_, ?_, ?_, fun b => rfl⟩
  · intro h
    show (f.finding_type.getD "unknown") = "unknown"
    rw [h]
    rfl
  · intro h
    show pyLower (f.severity.getD "medium") = "medium"
    rw [h]
    decide
  · intro h
    show (f.confidence.getD 50) = 50
    rw [h]
    rfl
  · intro h
    show (f.evidence.getD []) = []
    rw [h]
    rfl
  · show (decide (f.confidence.getD 50 < 70) ||
        decide (pyLower (f.severity.getD "") = "critical")) =
      (decide (f.confidence.getD 50 < 70) ||
        decide (pyLower (f.severity.getD "medium") = "critical"))
    congr 1
    cases hsv : f.severity with
    | none => rfl
    | some sv => rfl

/-- Witness for C9: a record with all fields absent normalizes to the
documented defaults. -/
theorem C9_witness :
    (normalizeFinding "forensic" sampleRaw).finding_type = "unknown" ∧
    (normalizeFinding "forensic" sampleRaw).severity = "medium" ∧
    (normalizeFinding "forensic" sampleRaw).confidence = 50 := by
  obtain ⟨_, ht, hs2, _, hcf, _, _, _⟩ :=
    C9_finding_normalization "forensic" sampleRaw []
  exact ⟨ht rfl, hs2 rfl, hcf rfl⟩

end ForensicVerify
